import Mathlib

/-!
Shallow embedding of the sampler core (`src/code/sampler/sampler.rs`):
a MIDI pass-through with recording and looping playback.

Raw MIDI messages are byte sequences, modelled as `List Nat`; instants and
durations are modelled as natural numbers (milliseconds); the shared
generation counter is modelled by the sequence of values that successive
atomic loads observe.
-/

namespace Sampler

/-! ## Constants (sampler.rs lines 26-30) -/

def TOP_BFLAT : Nat := 106

def TOP_B : Nat := 107

def TOP_C : Nat := 108

def LOOKBACK_MS : Nat := 50

def TRIGGER_SLEEP_MS : Nat := 3

/-! ## Message classifier (sampler.rs lines 343-385), pure and stateless -/

def is_note_event (data : List Nat) : Bool :=
  if data.isEmpty then
    false
  else
    let status : Nat := data.getD 0 0 &&& 0xF0
    status == 0x80 || status == 0x90

def get_note (data : List Nat) : Option Nat :=
  if 2 ≤ data.length ∧ is_note_event data then
    some (data.getD 1 0)
  else
    none

def get_channel (data : List Nat) : Option Nat :=
  if data.isEmpty then
    none
  else
    some (data.getD 0 0 &&& 0x0F)

def is_note_on (data : List Nat) : Bool :=
  if 3 ≤ data.length then
    let status : Nat := data.getD 0 0 &&& 0xF0
    status == 0x90 && data.getD 2 0 != 0
  else
    false

def is_note_off (data : List Nat) : Bool :=
  if 3 ≤ data.length then
    let status : Nat := data.getD 0 0 &&& 0xF0
    status == 0x80 || (status == 0x90 && data.getD 2 0 == 0)
  else
    false

/-! ## Claim C8 -/

/-- Claim C8 as frozen is false on the code: `is_note_off` additionally
requires the message to be at least 3 bytes long. The 2-byte message
`[0x80, 0x3C]` has note-off status nibble `0x80`, yet `is_note_off`
returns `false` on it. -/
theorem is_note_off_short_status_counterexample :
    is_note_off [0x80, 0x3C] = false ∧ ([0x80, 0x3C].getD 0 0 &&& 0xF0) = 0x80 := by
  decide

/-- Claim C8 (amended): for every raw message, `is_note_off` returns true iff
the message is at least 3 bytes long and its status nibble is note-off
(`0x80`), or the status nibble is note-on (`0x90`) and the velocity byte
(byte 2) equals 0. Messages shorter than 3 bytes always yield false. -/
theorem is_note_off_characterization (data : List Nat) :
    is_note_off data = true ↔
      3 ≤ data.length ∧
        ((data.getD 0 0 &&& 0xF0) = 0x80 ∨
          ((data.getD 0 0 &&& 0xF0) = 0x90 ∧ data.getD 2 0 = 0)) := by
  unfold is_note_off
  split
  · simp_all
  · simp_all

/-! ## Claim C9 -/

/-- Claim C9 as frozen is false on the code: the 2-byte message
`[0x90, 60]` is shorter than 3 bytes, yet `is_note_event` classifies it
as a note event and `get_note` extracts a note from it. -/
theorem short_message_classifier_counterexample :
    ([0x90, 60] : List Nat).length < 3 ∧
      is_note_event [0x90, 60] = true ∧
      get_note [0x90, 60] = some 60 := by
  decide

/-- Claim C9 (amended): for every raw message shorter than 3 bytes,
`is_note_on` and `is_note_off` return false with no error condition
raised; `is_note_event` however depends only on non-emptiness and the
status nibble (so a 1- or 2-byte message with a note status nibble is
still classified as a note event), and `get_note` yields nothing exactly
when the message is shorter than 2 bytes or is not a note event. -/
theorem short_message_classification (data : List Nat) (h : data.length < 3) :
    is_note_on data = false ∧
      is_note_off data = false ∧
      (is_note_event data = true ↔
        data ≠ [] ∧
          ((data.getD 0 0 &&& 0xF0) = 0x80 ∨ (data.getD 0 0 &&& 0xF0) = 0x90)) ∧
      (get_note data = none ↔ data.length < 2 ∨ is_note_event data = false) := by
  refine ⟨?_, ?_, ?_, ?_⟩
  · unfold is_note_on
    split
    · omega
    · rfl
  · unfold is_note_off
    split
    · omega
    · rfl
  · unfold is_note_event
    split
    · simp_all
    · simp_all [List.isEmpty_iff]
  · unfold get_note
    split
    · rename_i hc
      simp only [reduceCtorEq, false_iff]
      push_neg
      refine ⟨by omega, by simp [hc.2]⟩
    · rename_i hc
      simp only [true_iff]
      by_cases h2 : 2 ≤ data.length
      · cases hie : is_note_event data
        · exact Or.inr rfl
        · exact absurd ⟨h2, hie⟩ hc
      · exact Or.inl (by omega)

/-- Witness for the amended claim C9 at the concrete 2-byte message
`[0x90, 60]`. -/
theorem short_message_classification_witness :
    ([0x90, 60] : List Nat).length < 3 ∧
      (is_note_on [0x90, 60] = false ∧
        is_note_off [0x90, 60] = false ∧
        (is_note_event [0x90, 60] = true ↔
          ([0x90, 60] : List Nat) ≠ [] ∧
            (([0x90, 60].getD 0 0 &&& 0xF0) = 0x80 ∨
              ([0x90, 60].getD 0 0 &&& 0xF0) = 0x90)) ∧
        (get_note [0x90, 60] = none ↔
          ([0x90, 60] : List Nat).length < 2 ∨ is_note_event [0x90, 60] = false)) :=
  ⟨by decide, short_message_classification [0x90, 60] (by decide)⟩

/-! ## Session state (sampler.rs lines 32-53) -/

structure TimestampedMessage where
  data : List Nat
  offset : Nat
deriving DecidableEq

structure SamplerState where
  recording : Bool
  clip : List TimestampedMessage
  record_start : Option Nat
  last_normal_note : Option (Nat × List Nat)
deriving DecidableEq

def SamplerState.new : SamplerState :=
  { recording := false
    clip := []
    record_start := none
    last_normal_note := none }

inductive Command where
  | startLoop
  | stop
deriving DecidableEq

/-! ## Recording transitions (sampler.rs lines 285-341) -/

def stop_recording (s : SamplerState) : SamplerState :=
  { s with recording := false, record_start := none }

def start_recording (now : Nat) (s : SamplerState) : SamplerState :=
  let s1 : SamplerState := { s with recording := true, clip := [] }
  match s1.last_normal_note with
  | some (event_time, event_data) =>
    if now - event_time ≤ LOOKBACK_MS then
      { s1 with
        record_start := some event_time
        clip := [{ data := event_data, offset := 0 }] }
    else
      { s1 with record_start := some now }
  | none => { s1 with record_start := some now }

def handle_record_toggle (now : Nat) (s : SamplerState) : SamplerState :=
  if s.recording then stop_recording s else start_recording now s

/-- `handle_normal_event` (sampler.rs lines 301-314): returns the updated
state together with the message forwarded to the pass-through sink. -/
def handle_normal_event (data : List Nat) (now : Nat) (s : SamplerState) :
    SamplerState × List Nat :=
  let s1 : SamplerState :=
    if is_note_event data then
      { s with last_normal_note := some (now, data) }
    else
      s
  let s2 : SamplerState :=
    if s1.recording then
      match s1.record_start with
      | some start =>
        { s1 with clip := s1.clip ++ [{ data := data, offset := now - start }] }
      | none => s1
    else
      s1
  (s2, data)

/-- `handle_stop` (sampler.rs lines 273-283): returns the updated session
state, the updated generation counter, and the command sent to the sample
thread. It emits no MIDI message itself. -/
def handle_stop (s : SamplerState) (gen : Nat) : SamplerState × Nat × List Command :=
  let s1 : SamplerState := if s.recording then stop_recording s else s
  (s1, gen + 1, [Command.stop])

/-- `handle_trigger` (sampler.rs lines 290-299). -/
def handle_trigger (s : SamplerState) (gen : Nat) : SamplerState × Nat × List Command :=
  let s1 : SamplerState := if s.recording then stop_recording s else s
  (s1, gen + 1, [Command.startLoop])

/-- Processing a chronological list of `(arrival time, data)` normal events
through `handle_normal_event`. -/
def run_normal_events (events : List (Nat × List Nat)) (s : SamplerState) :
    SamplerState :=
  match events with
  | [] => s
  | (t, d) :: rest => run_normal_events rest (handle_normal_event d t s).1

/-- The lookback condition checked by `start_recording`: the last observed
normal note arrived at most `LOOKBACK_MS` before `now`. -/
def lookback_capture (now : Nat) (s : SamplerState) : Bool :=
  match s.last_normal_note with
  | some (t, _) => now - t ≤ LOOKBACK_MS
  | none => false

/-! ## Claim C3 -/

/-- Claim C3: a record toggle taken while Idle clears the clip; if a normal
note event was observed at most `LOOKBACK_MS` (50 ms) before the toggle,
that event becomes the clip's sole entry at offset zero and `record_start`
is backdated to its arrival time; otherwise the clip stays empty and
`record_start` is the toggle time. -/
theorem record_toggle_idle_lookback (s : SamplerState) (now : Nat)
    (hidle : s.recording = false) :
    ((handle_record_toggle now s).recording = true) ∧
      (s.last_normal_note = none →
        (handle_record_toggle now s).clip = [] ∧
          (handle_record_toggle now s).record_start = some now) ∧
      (∀ t d, s.last_normal_note = some (t, d) →
        (now - t ≤ LOOKBACK_MS →
          (handle_record_toggle now s).clip = [{ data := d, offset := 0 }] ∧
            (handle_record_toggle now s).record_start = some t) ∧
        (LOOKBACK_MS < now - t →
          (handle_record_toggle now s).clip = [] ∧
            (handle_record_toggle now s).record_start = some now)) := by
  unfold handle_record_toggle
  rw [hidle]
  simp only [Bool.false_eq_true, if_false]
  unfold start_recording
  refine ⟨?_, ?_, ?_⟩
  · cases hl : s.last_normal_note with
    | none => simp [hl]
    | some p =>
      obtain ⟨t, d⟩ := p
      simp only [hl]
      split <;> rfl
  · intro hl
    simp [hl]
  · intro t d hl
    simp only [hl]
    constructor
    · intro hle
      simp [hle]
    · intro hgt
      rw [if_neg (by omega)]
      exact ⟨rfl, rfl⟩

/-- Witness for claim C3: toggling at time 100 with the last normal note
observed at time 60 (40 ms earlier, inside the 50 ms window) captures that
note at offset zero and backdates `record_start` to 60. -/
theorem record_toggle_idle_lookback_witness :
    (({ recording := false
        clip := [{ data := [1], offset := 7 }]
        record_start := none
        last_normal_note := some (60, [0x90, 64, 100]) } : SamplerState).recording
          = false) ∧
      (handle_record_toggle 100
          { recording := false
            clip := [{ data := [1], offset := 7 }]
            record_start := none
            last_normal_note := some (60, [0x90, 64, 100]) }).clip
        = [{ data := [0x90, 64, 100], offset := 0 }] ∧
      (handle_record_toggle 100
          { recording := false
            clip := [{ data := [1], offset := 7 }]
            record_start := none
            last_normal_note := some (60, [0x90, 64, 100]) }).record_start
        = some 60 :=
  ⟨rfl,
    ((record_toggle_idle_lookback
      { recording := false
        clip := [{ data := [1], offset := 7 }]
        record_start := none
        last_normal_note := some (60, [0x90, 64, 100]) }
      100 rfl).2.2 60 [0x90, 64, 100] rfl).1 (by decide)⟩

/-! ## Claim C10 -/

/-- The implicit session invariant: the recording flag is set exactly when
`record_start` is present. -/
def state_inv (s : SamplerState) : Bool :=
  s.recording == s.record_start.isSome

/-- Claim C10: `recording` is true iff `record_start` is `some` in every
reachable state: the invariant holds for the initial state and is
preserved by `start_recording`, `stop_recording`, `handle_record_toggle`,
`handle_stop`, `handle_trigger`, and normal-event handling. -/
theorem recording_record_start_invariant (s : SamplerState)
    (h : state_inv s = true) :
    state_inv SamplerState.new = true ∧
      (∀ now, state_inv (start_recording now s) = true) ∧
      state_inv (stop_recording s) = true ∧
      (∀ now, state_inv (handle_record_toggle now s) = true) ∧
      (∀ gen, state_inv (handle_stop s gen).1 = true) ∧
      (∀ gen, state_inv (handle_trigger s gen).1 = true) ∧
      (∀ d now, state_inv (handle_normal_event d now s).1 = true) := by
  have hstart : ∀ now, state_inv (start_recording now s) = true := by
    intro now
    unfold start_recording state_inv
    cases hl : s.last_normal_note with
    | none => rfl
    | some p =>
      obtain ⟨t, d⟩ := p
      simp only
      split <;> rfl
  have hstop : state_inv (stop_recording s) = true := rfl
  refine ⟨rfl, hstart, hstop, ?_, ?_, ?_, ?_⟩
  · intro now
    unfold handle_record_toggle
    split
    · exact hstop
    · exact hstart now
  · intro gen
    unfold handle_stop
    split
    · exact hstop
    · exact h
  · intro gen
    unfold handle_trigger
    split
    · exact hstop
    · exact h
  · intro d now
    unfold handle_normal_event state_inv
    unfold state_inv at h
    cases hrs : s.record_start <;> split <;> simp_all

/-- Witness for claim C10 at the initial state. -/
theorem recording_record_start_invariant_witness :
    state_inv SamplerState.new = true ∧
      state_inv (stop_recording SamplerState.new) = true :=
  ⟨by decide, (recording_record_start_invariant SamplerState.new (by decide)).2.2.1⟩

/-! ## Helper lemmas on normal-event handling -/

lemma handle_normal_event_recording_eq (d : List Nat) (t : Nat) (s : SamplerState) :
    ((handle_normal_event d t s).1).recording = s.recording := by
  unfold handle_normal_event
  split <;> cases hrs : s.record_start <;>
    by_cases hr : s.recording = true <;> simp_all

lemma handle_normal_event_record_start_eq (d : List Nat) (t : Nat) (s : SamplerState) :
    ((handle_normal_event d t s).1).record_start = s.record_start := by
  unfold handle_normal_event
  split <;> cases hrs : s.record_start <;>
    by_cases hr : s.recording = true <;> simp_all

lemma handle_normal_event_clip_idle (d : List Nat) (t : Nat) (s : SamplerState)
    (h : s.recording = false) :
    ((handle_normal_event d t s).1).clip = s.clip := by
  unfold handle_normal_event
  split <;> simp_all

lemma handle_normal_event_clip_rec (d : List Nat) (t : Nat) (s : SamplerState)
    (rs : Nat) (h : s.recording = true) (hrs : s.record_start = some rs) :
    ((handle_normal_event d t s).1).clip
      = s.clip ++ [{ data := d, offset := t - rs }] := by
  unfold handle_normal_event
  split <;> simp_all

lemma run_normal_events_clip_idle (evs : List (Nat × List Nat)) :
    ∀ s : SamplerState, s.recording = false →
      (run_normal_events evs s).clip = s.clip := by
  induction evs with
  | nil => intro s _; rfl
  | cons e rest ih =>
    intro s h
    obtain ⟨t, d⟩ := e
    unfold run_normal_events
    rw [ih _ (by rw [handle_normal_event_recording_eq]; exact h)]
    exact handle_normal_event_clip_idle d t s h

lemma run_normal_events_clip_rec (evs : List (Nat × List Nat)) :
    ∀ (s : SamplerState) (rs : Nat), s.recording = true → s.record_start = some rs →
      (run_normal_events evs s).clip
        = s.clip ++ evs.map (fun e => { data := e.2, offset := e.1 - rs }) := by
  induction evs with
  | nil => intro s rs _ _; simp [run_normal_events]
  | cons e rest ih =>
    intro s rs h hrs
    obtain ⟨t, d⟩ := e
    unfold run_normal_events
    rw [ih _ rs (by rw [handle_normal_event_recording_eq]; exact h)
          (by rw [handle_normal_event_record_start_eq]; exact hrs),
        handle_normal_event_clip_rec d t s rs h hrs]
    simp

/-! ## Claim C5 -/

/-- Claim C5: every Recording-to-Idle transition (record toggle while
recording, Stop, or the recording-side effect of Trigger) goes through
`stop_recording`, which freezes the clip and the last-note memo unchanged
and only clears the recording flag and `record_start`; afterwards no
subsequent sequence of normal messages appends anything to the clip. -/
theorem recording_to_idle_frame (s : SamplerState) (now gen gen' : Nat)
    (evs : List (Nat × List Nat)) (hrec : s.recording = true) :
    (stop_recording s).clip = s.clip ∧
      (stop_recording s).last_normal_note = s.last_normal_note ∧
      (stop_recording s).recording = false ∧
      (stop_recording s).record_start = none ∧
      handle_record_toggle now s = stop_recording s ∧
      (handle_stop s gen).1 = stop_recording s ∧
      (handle_trigger s gen').1 = stop_recording s ∧
      (run_normal_events evs (stop_recording s)).clip = s.clip := by
  refine ⟨rfl, rfl, rfl, rfl, ?_, ?_, ?_, ?_⟩
  · unfold handle_record_toggle
    rw [if_pos hrec]
  · unfold handle_stop
    rw [if_pos hrec]
  · unfold handle_trigger
    rw [if_pos hrec]
  · exact run_normal_events_clip_idle evs (stop_recording s) rfl

/-- Witness for claim C5 on a concrete recording state with one clip entry
and two subsequent normal messages. -/
theorem recording_to_idle_frame_witness :
    (({ recording := true
        clip := [{ data := [0x90, 60, 99], offset := 5 }]
        record_start := some 3
        last_normal_note := none } : SamplerState).recording = true) ∧
      (run_normal_events [(10, [0x90, 61, 90]), (12, [0x80, 61, 0])]
        (stop_recording
          { recording := true
            clip := [{ data := [0x90, 60, 99], offset := 5 }]
            record_start := some 3
            last_normal_note := none })).clip
        = [{ data := [0x90, 60, 99], offset := 5 }] :=
  ⟨rfl,
    (recording_to_idle_frame
      { recording := true
        clip := [{ data := [0x90, 60, 99], offset := 5 }]
        record_start := some 3
        last_normal_note := none }
      0 0 0 [(10, [0x90, 61, 90]), (12, [0x80, 61, 0])] rfl).2.2.2.2.2.2.2⟩

/-! ## Playback engine (sampler.rs lines 152-271)

Messages sent to the loop sink are tagged by provenance: a replayed clip
event or a safety note-off emitted by `send_all_notes_off`. The shared
atomic generation counter is modelled by the list `gens` of values that
successive loads observe; once the list is exhausted every further load
observes the playback instance's own captured generation (no concurrent
increment). The wall clock is a natural number of milliseconds and a
completed sleep advances it to its target. -/

inductive Emit where
  | clipEvent (data : List Nat)
  | offEvent (data : List Nat)
deriving DecidableEq

def Emit.isClipEvent : Emit → Bool
  | .clipEvent _ => true
  | .offEvent _ => false

/-- One atomic load of the generation counter. -/
def read_gen (gens : List Nat) (myGen : Nat) : Nat × List Nat :=
  match gens with
  | [] => (myGen, [])
  | g :: rest => (g, rest)

/-- `send_all_notes_off` (sampler.rs lines 266-271): one note-off message
per (channel, note) pair in the active set. -/
def send_all_notes_off (active : List (Nat × Nat)) : List Emit :=
  active.map (fun p => Emit.offEvent [0x80 ||| p.1, p.2, 0])

/-- Active-note bookkeeping (sampler.rs lines 217-225), with `HashSet`
insert/remove modelled on a duplicate-free list. -/
def track_active (data : List Nat) (active : List (Nat × Nat)) : List (Nat × Nat) :=
  match get_note data, get_channel data with
  | some note, some channel =>
    if is_note_on data then
      if (channel, note) ∈ active then active else (channel, note) :: active
    else if is_note_off data then
      active.erase (channel, note)
    else
      active
  | _, _ => active

/-- `interruptible_sleep` (sampler.rs lines 252-264): sleeps in chunks of
`TRIGGER_SLEEP_MS`, loading the generation counter before each chunk;
returns whether it was interrupted, together with the unconsumed
generation observations. -/
def interruptible_sleep (remaining : Nat) (gens : List Nat) (myGen : Nat) :
    Bool × List Nat :=
  if hrem : remaining = 0 then
    (false, gens)
  else
    let rd := read_gen gens myGen
    if rd.1 ≠ myGen then
      (true, rd.2)
    else
      interruptible_sleep (remaining - min remaining TRIGGER_SLEEP_MS) rd.2 myGen
termination_by remaining
decreasing_by
  have h3 : TRIGGER_SLEEP_MS = 3 := rfl
  omega

/-- Result of replaying the events of one loop pass. -/
inductive PassResult where
  | cancelled (out : List Emit)
  | completed (out : List Emit) (active : List (Nat × Nat)) (clock : Nat)
      (gens : List Nat)
deriving DecidableEq

/-- The per-event wait (sampler.rs lines 208-215): if the target instant is
still in the future, sleep interruptibly until it; returns (interrupted,
new clock, unconsumed generation observations). -/
def sleep_step (clock target : Nat) (gens : List Nat) (myGen : Nat) :
    Bool × Nat × List Nat :=
  if clock < target then
    let is := interruptible_sleep (target - clock) gens myGen
    (is.1, target, is.2)
  else
    (false, clock, gens)

/-- The inner `for msg in clip.iter()` loop of `play_loop` (sampler.rs
lines 202-228): for each event, load the generation counter (cancelling
with a safety sweep on mismatch), sleep interruptibly until
`loop_start + offset`, update the active-note set, and emit the event. -/
def play_events (clip : List TimestampedMessage) (loop_start clock : Nat)
    (active : List (Nat × Nat)) (gens : List Nat) (myGen : Nat) : PassResult :=
  match clip with
  | [] => .completed [] active clock gens
  | msg :: rest =>
    let rd := read_gen gens myGen
    if rd.1 ≠ myGen then
      .cancelled (send_all_notes_off active)
    else
      let sl := sleep_step clock (loop_start + msg.offset) rd.2 myGen
      if sl.1 then
        .cancelled (send_all_notes_off active)
      else
        match play_events rest loop_start sl.2.1 (track_active msg.data active)
            sl.2.2 myGen with
        | .cancelled out => .cancelled (.clipEvent msg.data :: out)
        | .completed out a c gs => .completed (.clipEvent msg.data :: out) a c gs

/-- Result of a whole `play_loop` invocation: `cancelled` when a stale
generation was observed, `stopped` when the clip was empty or the pass
fuel ran out (the model's stand-in for the endless loop). -/
inductive PlayResult where
  | cancelled (out : List Emit)
  | stopped (out : List Emit)
deriving DecidableEq

/-- The outer endless `loop` of `play_loop` (sampler.rs lines 199-238),
with `fuel` bounding the number of passes: one pass of `play_events`,
then an interruptible sleep for the remainder of `loop_duration`. -/
def play_loop_go (fuel : Nat) (clip : List TimestampedMessage)
    (loop_duration : Nat) (clock : Nat) (active : List (Nat × Nat))
    (gens : List Nat) (myGen : Nat) : PlayResult :=
  match fuel with
  | 0 => .stopped []
  | fuel' + 1 =>
    let loop_start := clock
    match play_events clip loop_start clock active gens myGen with
    | .cancelled out => .cancelled out
    | .completed out active2 clock2 gens2 =>
      let elapsed := clock2 - loop_start
      if elapsed < loop_duration then
        let is := interruptible_sleep (loop_duration - elapsed) gens2 myGen
        if is.1 then
          .cancelled (out ++ send_all_notes_off active2)
        else
          match play_loop_go fuel' clip loop_duration (loop_start + loop_duration)
              active2 is.2 myGen with
          | .cancelled out2 => .cancelled (out ++ out2)
          | .stopped out2 => .stopped (out ++ out2)
      else
        match play_loop_go fuel' clip loop_duration clock2 active2 gens2 myGen with
        | .cancelled out2 => .cancelled (out ++ out2)
        | .stopped out2 => .stopped (out ++ out2)

/-- `play_loop` (sampler.rs lines 182-239): returns immediately on an empty
clip, otherwise computes the loop duration from the last event and starts
the pass loop with an empty active-note set. -/
def play_loop (fuel : Nat) (clip : List TimestampedMessage) (clock : Nat)
    (gens : List Nat) (myGen : Nat) : PlayResult :=
  if clip.isEmpty then
    .stopped []
  else
    let loop_duration : Nat := ((clip.getLast?).map TimestampedMessage.offset).getD 0
    play_loop_go fuel clip loop_duration clock [] gens myGen

/-- `copy_clip` (sampler.rs lines 241-250). -/
def copy_clip (s : SamplerState) : List TimestampedMessage :=
  s.clip.map (fun m => { data := m.data, offset := m.offset })

/-- The `Command::StartLoop` arm of `run_sample_thread` (sampler.rs lines
160-174): copy the clip under the lock; if it is empty, report
"No clip to play" to the console (the Bool component) and play nothing;
otherwise run `play_loop`. -/
def handle_start_loop (s : SamplerState) (fuel clock : Nat) (gens : List Nat)
    (myGen : Nat) : List Emit × Bool :=
  let clip := copy_clip s
  if clip.isEmpty then
    ([], true)
  else
    match play_loop fuel clip clock gens myGen with
    | .cancelled out => (out, false)
    | .stopped out => (out, false)

/-- One command processed by `run_sample_thread` (sampler.rs lines
152-180): `StartLoop` plays the copied clip, `Stop` does nothing (the
generation counter was already incremented by the dispatcher). The result
is the list of messages emitted to the loop sink plus the empty-clip
report flag. -/
def sample_thread_step (cmd : Command) (s : SamplerState) (fuel clock : Nat)
    (gens : List Nat) (myGen : Nat) : List Emit × Bool :=
  match cmd with
  | .startLoop => handle_start_loop s fuel clock gens myGen
  | .stop => ([], false)

/-! ## Trace bookkeeping for the cancellation-safety proof -/

/-- Replay the active-note bookkeeping over an emitted trace: exactly the
updates the playback pass performs just before each clip-event emission. -/
def active_of_trace (active : List (Nat × Nat)) : List Emit → List (Nat × Nat)
  | [] => active
  | .clipEvent d :: rest => active_of_trace (track_active d active) rest
  | .offEvent _ :: rest => active_of_trace active rest

lemma active_of_trace_append (es1 es2 : List Emit) :
    ∀ active, active_of_trace active (es1 ++ es2)
      = active_of_trace (active_of_trace active es1) es2 := by
  induction es1 with
  | nil => intro active; rfl
  | cons e rest ih =>
    intro active
    cases e with
    | clipEvent d => simpa [active_of_trace] using ih (track_active d active)
    | offEvent d => simpa [active_of_trace] using ih active

lemma send_all_notes_off_no_clip (active : List (Nat × Nat)) :
    ∀ e ∈ send_all_notes_off active, e.isClipEvent = false := by
  intro e he
  unfold send_all_notes_off at he
  obtain ⟨p, _, rfl⟩ := List.mem_map.mp he
  rfl

lemma play_events_cancelled_spec (clip : List TimestampedMessage) :
    ∀ loop_start clock active gens myGen out,
      play_events clip loop_start clock active gens myGen = .cancelled out →
      ∃ es, out = es ++ send_all_notes_off (active_of_trace active es) ∧
        ∀ e ∈ es, e.isClipEvent = true := by
  induction clip with
  | nil =>
    intro loop_start clock active gens myGen out h
    simp [play_events] at h
  | cons msg rest ih =>
    intro loop_start clock active gens myGen out h
    simp only [play_events] at h
    split at h
    · injection h with h
      exact ⟨[], by simp [active_of_trace, h], by simp⟩
    · split at h
      · injection h with h
        exact ⟨[], by simp [active_of_trace, h], by simp⟩
      · split at h
        · rename_i out' heq
          injection h with h
          obtain ⟨es', hes', hall⟩ := ih _ _ _ _ _ _ heq
          refine ⟨Emit.clipEvent msg.data :: es', ?_, ?_⟩
          · rw [← h, hes']
            rfl
          · intro e he
            rcases List.mem_cons.mp he with rfl | hmem
            · rfl
            · exact hall e hmem
        · exact absurd h (by simp)

lemma play_events_completed_spec (clip : List TimestampedMessage) :
    ∀ loop_start clock active gens myGen out a c gs,
      play_events clip loop_start clock active gens myGen = .completed out a c gs →
      a = active_of_trace active out ∧ ∀ e ∈ out, e.isClipEvent = true := by
  induction clip with
  | nil =>
    intro loop_start clock active gens myGen out a c gs h
    rw [play_events] at h
    injection h with h1 h2
    subst h1
    subst h2
    exact ⟨rfl, by simp⟩
  | cons msg rest ih =>
    intro loop_start clock active gens myGen out a c gs h
    simp only [play_events] at h
    split at h
    · exact absurd h (by simp)
    · split at h
      · exact absurd h (by simp)
      · split at h
        · exact absurd h (by simp)
        · rename_i out' a' c' gs' heq
          injection h with h1 h2 h3 h4
          subst h2
          subst h1
          obtain ⟨ha, hall⟩ := ih _ _ _ _ _ _ _ _ _ heq
          refine ⟨ha, ?_⟩
          intro e he
          rcases List.mem_cons.mp he with rfl | hmem
          · rfl
          · exact hall e hmem

lemma play_loop_go_cancelled_spec (fuel : Nat) :
    ∀ clip loop_duration clock active gens myGen out,
      play_loop_go fuel clip loop_duration clock active gens myGen
        = .cancelled out →
      ∃ es, out = es ++ send_all_notes_off (active_of_trace active es) ∧
        ∀ e ∈ es, e.isClipEvent = true := by
  induction fuel with
  | zero =>
    intro clip loop_duration clock active gens myGen out h
    simp [play_loop_go] at h
  | succ fuel' ih =>
    intro clip loop_duration clock active gens myGen out h
    simp only [play_loop_go] at h
    split at h
    · rename_i out1 heq
      injection h with h
      subst h
      exact play_events_cancelled_spec clip _ _ _ _ _ _ heq
    · rename_i out1 active2 clock2 gens2 heq
      obtain ⟨ha2, hall1⟩ := play_events_completed_spec clip _ _ _ _ _ _ _ _ _ heq
      split at h
      · split at h
        · injection h with h
          refine ⟨out1, ?_, hall1⟩
          rw [← h, ha2]
        · split at h
          · rename_i out2 heq2
            injection h with h
            obtain ⟨es2, hes2, hall2⟩ := ih _ _ _ _ _ _ _ heq2
            refine ⟨out1 ++ es2, ?_, ?_⟩
            · rw [← h, hes2, active_of_trace_append, ← ha2, List.append_assoc]
            · intro e he
              rcases List.mem_append.mp he with hmem | hmem
              · exact hall1 e hmem
              · exact hall2 e hmem
          · exact absurd h (by simp)
      · split at h
        · rename_i out2 heq2
          injection h with h
          obtain ⟨es2, hes2, hall2⟩ := ih _ _ _ _ _ _ _ heq2
          refine ⟨out1 ++ es2, ?_, ?_⟩
          · rw [← h, hes2, active_of_trace_append, ← ha2, List.append_assoc]
          · intro e he
            rcases List.mem_append.mp he with hmem | hmem
            · exact hall1 e hmem
            · exact hall2 e hmem
        · exact absurd h (by simp)

/-! ## Claim C1 -/

/-- Claim C1: whenever a playback instance returns because it observed a
generation different from its captured one, its whole emission trace is a
prefix of clip events followed by exactly one safety note-off per
(channel, note) pair in the active-note set maintained over that prefix,
and nothing — in particular no clip event — is emitted after the stale
observation. -/
theorem play_loop_cancellation_safety (fuel clock myGen : Nat)
    (clip : List TimestampedMessage) (gens : List Nat) (out : List Emit)
    (h : play_loop fuel clip clock gens myGen = .cancelled out) :
    ∃ es, out = es ++ send_all_notes_off (active_of_trace [] es) ∧
      (∀ e ∈ es, e.isClipEvent = true) ∧
      ∀ e ∈ send_all_notes_off (active_of_trace [] es), e.isClipEvent = false := by
  rw [play_loop] at h
  split at h
  · exact absurd h (by simp)
  · obtain ⟨es, hes, hall⟩ := play_loop_go_cancelled_spec fuel _ _ _ _ _ _ _ h
    exact ⟨es, hes, hall, send_all_notes_off_no_clip _⟩

/-- Witness for claim C1: a two-event clip (note-on then note-off of middle
C on channel 0) whose second generation load observes 1 instead of the
captured 0; the run emits the note-on and then the compensating safety
note-off. -/
theorem play_loop_cancellation_safety_witness :
    (play_loop 1
        [{ data := [0x90, 60, 100], offset := 0 },
          { data := [0x80, 60, 0], offset := 0 }]
        0 [0, 1] 0
      = .cancelled [Emit.clipEvent [0x90, 60, 100], Emit.offEvent [0x80, 60, 0]]) ∧
      ∃ es, [Emit.clipEvent [0x90, 60, 100], Emit.offEvent [0x80, 60, 0]]
          = es ++ send_all_notes_off (active_of_trace [] es) ∧
        (∀ e ∈ es, e.isClipEvent = true) ∧
        ∀ e ∈ send_all_notes_off (active_of_trace [] es), e.isClipEvent = false :=
  ⟨by decide,
    play_loop_cancellation_safety 1 0 0
      [{ data := [0x90, 60, 100], offset := 0 },
        { data := [0x80, 60, 0], offset := 0 }]
      [0, 1] _ (by decide)⟩

/-! ## Claim C6 -/

/-- Claim C6: a `StartLoop` command finding an empty clip plays nothing:
no message reaches the loop sink, the condition is reported to the
console (the Bool flag) rather than propagated as an error, and
`play_loop` itself returns immediately on an empty clip. -/
theorem empty_clip_trigger_no_output (s : SamplerState) (fuel clock myGen : Nat)
    (gens : List Nat) (h : s.clip = []) :
    handle_start_loop s fuel clock gens myGen = ([], true) ∧
      play_loop fuel (copy_clip s) clock gens myGen = .stopped [] := by
  unfold handle_start_loop play_loop copy_clip
  rw [h]
  simp

/-- Witness for claim C6: triggering from the initial (empty-clip) state. -/
theorem empty_clip_trigger_no_output_witness :
    SamplerState.new.clip = [] ∧
      handle_start_loop SamplerState.new 5 0 [0, 1] 0 = ([], true) :=
  ⟨rfl, (empty_clip_trigger_no_output SamplerState.new 5 0 0 [0, 1] rfl).1⟩

/-! ## Claim C7 -/

/-- Claim C7: a Stop issued while not recording leaves every session field
unchanged, emits no MIDI message (the sample thread's `Stop` arm sends
nothing to the loop sink, and `handle_stop` sends nothing to the
pass-through sink), and repeating it is idempotent on the session state;
only the generation counter is incremented. -/
theorem stop_idle_idempotent (s : SamplerState) (gen gen2 fuel clock myGen : Nat)
    (gens : List Nat) (h : s.recording = false) :
    (handle_stop s gen).1 = s ∧
      (handle_stop s gen).2.1 = gen + 1 ∧
      (handle_stop s gen).2.2 = [Command.stop] ∧
      sample_thread_step Command.stop s fuel clock gens myGen = ([], false) ∧
      (handle_stop (handle_stop s gen).1 gen2).1 = s := by
  unfold handle_stop sample_thread_step
  simp [h]

/-- Witness for claim C7 at the initial state. -/
theorem stop_idle_idempotent_witness :
    SamplerState.new.recording = false ∧
      (handle_stop SamplerState.new 0).1 = SamplerState.new :=
  ⟨rfl, (stop_idle_idempotent SamplerState.new 0 1 3 0 0 [] rfl).1⟩

/-! ## Command dispatch (sampler.rs lines 90-119) -/

structure CallbackResult where
  state : SamplerState
  gen : Nat
  cmds : List Command
  pass_through : List (List Nat)
deriving DecidableEq

/-- The input callback closure of `main` (sampler.rs lines 92-117): the
three reserved notes are intercepted when they arrive as note-ons; every
other message reaches `handle_normal_event`, which unconditionally sends
it to the pass-through sink. -/
def input_callback (data : List Nat) (now : Nat) (s : SamplerState) (gen : Nat) :
    CallbackResult :=
  match get_note data with
  | some n =>
    if n = TOP_BFLAT ∧ is_note_on data = true then
      let r := handle_stop s gen
      { state := r.1, gen := r.2.1, cmds := r.2.2, pass_through := [] }
    else if n = TOP_B ∧ is_note_on data = true then
      { state := handle_record_toggle now s, gen := gen, cmds := [],
        pass_through := [] }
    else if n = TOP_C ∧ is_note_on data = true then
      let r := handle_trigger s gen
      { state := r.1, gen := r.2.1, cmds := r.2.2, pass_through := [] }
    else
      let r := handle_normal_event data now s
      { state := r.1, gen := gen, cmds := [], pass_through := [r.2] }
  | none =>
    let r := handle_normal_event data now s
    { state := r.1, gen := gen, cmds := [], pass_through := [r.2] }

lemma handle_normal_event_snd (d : List Nat) (t : Nat) (s : SamplerState) :
    (handle_normal_event d t s).2 = d := rfl

/-! ## Claim C2 -/

/-- Claim C2 as frozen is false on the code: only reserved-note
*note-ons* are intercepted. The note-off message `[0x80, 106, 64]`
carries reserved note number 106, yet it falls through to
`handle_normal_event` and is forwarded to the pass-through sink. -/
theorem reserved_note_off_forwarded_counterexample :
    get_note [0x80, 106, 64] = some TOP_BFLAT ∧
      (input_callback [0x80, 106, 64] 0 SamplerState.new 0).pass_through
        = [[0x80, 106, 64]] := by
  decide

/-- Claim C2 (amended): an incoming message is forwarded to the
pass-through sink iff it is not a note-on (velocity > 0) of one of the
three reserved notes 106, 107, 108; reserved-note note-ons are
intercepted and never forwarded, while every other message — including
note-offs of the reserved notes — is forwarded unconditionally,
regardless of recording state. -/
theorem pass_through_forwarding (data : List Nat) (now : Nat) (s : SamplerState)
    (gen : Nat) :
    (input_callback data now s gen).pass_through = [data] ↔
      ¬(is_note_on data = true ∧
        (get_note data = some TOP_BFLAT ∨ get_note data = some TOP_B ∨
          get_note data = some TOP_C)) := by
  unfold input_callback
  cases hn : get_note data with
  | none => simp [handle_normal_event_snd, hn]
  | some n =>
    by_cases hon : is_note_on data = true
    · by_cases h1 : n = TOP_BFLAT
      · subst h1
        simp [hon, hn]
      · by_cases h2 : n = TOP_B
        · subst h2
          simp [hon, hn, h1]
        · by_cases h3 : n = TOP_C
          · subst h3
            simp [hon, hn, h1, h2]
          · simp [handle_normal_event_snd, hon, hn, h1, h2, h3]
    · simp [handle_normal_event_snd, hon, hn]

/-! ## Claim C4 -/

/-- Claim C4 as frozen is false on the code: a record session started at
time 100 with no recent normal note (no lookback capture) that records a
normal event arriving at that same instant yields a clip whose first
offset is zero, so "first offset zero iff lookback capture" fails. -/
theorem record_session_zero_offset_counterexample :
    lookback_capture 100 SamplerState.new = false ∧
      ((run_normal_events [(100, [0x90, 60, 100])]
            (handle_record_toggle 100 SamplerState.new)).clip).map
          TimestampedMessage.offset
        = [0] := by
  decide

lemma offsets_chain (evs : List (Nat × List Nat)) (rs : Nat)
    (h : List.Chain' (fun a b => a ≤ b) (evs.map Prod.fst)) :
    List.Chain' (fun a b => a ≤ b)
      ((evs.map
          (fun e => ({ data := e.2, offset := e.1 - rs } : TimestampedMessage))).map
        TimestampedMessage.offset) := by
  rw [List.map_map, List.chain'_map]
  rw [List.chain'_map] at h
  refine List.Chain'.imp ?_ h
  intro a b hab
  exact Nat.sub_le_sub_right hab rs

/-- Claim C4 (amended): for every record session (toggle while Idle, then
any chronologically ordered sequence of normal events), the clip's offset
sequence is non-decreasing; if the session began via lookback capture the
first offset is zero; if it did not, the first offset is zero only
because the first recorded event arrived at the very toggle instant — an
event arriving strictly after the toggle yields a positive first offset.
(The clip is frozen by the stop transition, claim C5, so these are the
offsets of the finished clip.) -/
theorem record_session_offsets (s0 : SamplerState) (t0 : Nat)
    (evs : List (Nat × List Nat)) (hidle : s0.recording = false)
    (hmono : List.Chain' (fun a b => a ≤ b) (t0 :: evs.map Prod.fst)) :
    List.Chain' (fun a b => a ≤ b)
        (((run_normal_events evs (handle_record_toggle t0 s0)).clip).map
          TimestampedMessage.offset) ∧
      (lookback_capture t0 s0 = true →
        (((run_normal_events evs (handle_record_toggle t0 s0)).clip).map
            TimestampedMessage.offset).head? = some 0) ∧
      (lookback_capture t0 s0 = false →
        ∀ t1 d1 rest, evs = (t1, d1) :: rest → t0 < t1 →
          ∃ o, (((run_normal_events evs (handle_record_toggle t0 s0)).clip).map
                TimestampedMessage.offset).head? = some o ∧ 0 < o) := by
  have htoggle : handle_record_toggle t0 s0 = start_recording t0 s0 := by
    unfold handle_record_toggle
    rw [hidle]
    simp
  have htail : List.Chain' (fun a b => a ≤ b) (evs.map Prod.fst) := hmono.tail
  cases hl : s0.last_normal_note with
  | some p =>
    obtain ⟨t, d⟩ := p
    by_cases hwin : t0 - t ≤ LOOKBACK_MS
    · -- lookback capture
      have hstart : start_recording t0 s0
          = { recording := true
              clip := [{ data := d, offset := 0 }]
              record_start := some t
              last_normal_note := some (t, d) } := by
        unfold start_recording
        simp [hl, hwin]
      have hclip : (run_normal_events evs (handle_record_toggle t0 s0)).clip
          = { data := d, offset := 0 }
            :: evs.map (fun e => { data := e.2, offset := e.1 - t }) := by
        rw [htoggle, hstart,
          run_normal_events_clip_rec evs _ t rfl rfl]
        rfl
      have hlook : lookback_capture t0 s0 = true := by
        unfold lookback_capture
        rw [hl]
        simpa using hwin
      refine ⟨?_, fun _ => ?_, fun hfalse => ?_⟩
      · rw [hclip]
        simp only [List.map_cons]
        rw [List.chain'_cons']
        exact ⟨fun b _ => Nat.zero_le b, offsets_chain evs t htail⟩
      · rw [hclip]
        rfl
      · rw [hlook] at hfalse
        cases hfalse
    · -- recent note exists but is outside the window
      have hstart : start_recording t0 s0
          = { recording := true
              clip := []
              record_start := some t0
              last_normal_note := some (t, d) } := by
        unfold start_recording
        simp [hl, hwin]
      have hclip : (run_normal_events evs (handle_record_toggle t0 s0)).clip
          = evs.map (fun e => { data := e.2, offset := e.1 - t0 }) := by
        rw [htoggle, hstart,
          run_normal_events_clip_rec evs _ t0 rfl rfl]
        rfl
      have hlook : lookback_capture t0 s0 = false := by
        unfold lookback_capture
        rw [hl]
        simpa using hwin
      refine ⟨?_, fun htrue => ?_, fun _ t1 d1 rest hevs ht1 => ?_⟩
      · rw [hclip]
        exact offsets_chain evs t0 htail
      · rw [hlook] at htrue
        cases htrue
      · subst hevs
        rw [hclip]
        exact ⟨t1 - t0, rfl, by omega⟩
  | none =>
    have hstart : start_recording t0 s0
        = { recording := true
            clip := []
            record_start := some t0
            last_normal_note := none } := by
      unfold start_recording
      simp [hl]
    have hclip : (run_normal_events evs (handle_record_toggle t0 s0)).clip
        = evs.map (fun e => { data := e.2, offset := e.1 - t0 }) := by
      rw [htoggle, hstart,
        run_normal_events_clip_rec evs _ t0 rfl rfl]
      rfl
    have hlook : lookback_capture t0 s0 = false := by
      unfold lookback_capture
      rw [hl]
    refine ⟨?_, fun htrue => ?_, fun _ t1 d1 rest hevs ht1 => ?_⟩
    · rw [hclip]
      exact offsets_chain evs t0 htail
    · rw [hlook] at htrue
      cases htrue
    · subst hevs
      rw [hclip]
      exact ⟨t1 - t0, rfl, by omega⟩

/-- Witness for the amended claim C4: a session with lookback capture (last
note at 60, toggle at 100) recording one further event at 150. -/
theorem record_session_offsets_witness :
    (({ recording := false
        clip := []
        record_start := none
        last_normal_note := some (60, [0x90, 64, 100]) } : SamplerState).recording
          = false) ∧
      List.Chain' (fun a b => a ≤ b) (100 :: [(150, [0x80, 64, 0])].map Prod.fst) ∧
      List.Chain' (fun a b => a ≤ b)
        (((run_normal_events [(150, [0x80, 64, 0])]
              (handle_record_toggle 100
                { recording := false
                  clip := []
                  record_start := none
                  last_normal_note := some (60, [0x90, 64, 100]) })).clip).map
          TimestampedMessage.offset) :=
  ⟨rfl, by norm_num [List.chain'_cons],
    (record_session_offsets
      { recording := false
        clip := []
        record_start := none
        last_normal_note := some (60, [0x90, 64, 100]) }
      100 [(150, [0x80, 64, 0])] rfl (by norm_num [List.chain'_cons])).1⟩

end Sampler
